import Mathlib

/-!
# Verification of the Tron light-cycles core (`src/game.ts`, class `TronGame`)

Shallow embedding of the auto-playing Tron simulation: the 7×52 trail grid,
the four light cycles, the heuristic decision engine (feature extraction,
weighted scoring, softmax selection) and the round lifecycle state machine.

Modelling conventions:
* JavaScript numbers that only ever hold integral values (positions, ids,
  scores, times in milliseconds) are modelled as `Int` / `Nat`.
* `Math.random()` draws are passed in explicitly: the four initial-heading
  draws as `rnd : Fin 4 → ℚ`, and the per-decision draw of
  `makeAIDecision` as a real number `r` (it is compared against softmax
  cumulative probabilities, which are real).
* Particle visual effects are an external rendering collaborator; the
  particle type `P` and the two renderer functions consumed by the core
  (`updateParticles`, `createExplosion`) are parameters `up` and `mkExp`.
  The core never reads particle contents.
* `performance.now()` inside `reset` is identified with the `currentTime`
  of the `update` call that triggers the reset.
-/

namespace Tron

inductive Direction : Type
| UP : Direction
| DOWN : Direction
| LEFT : Direction
| RIGHT : Direction
deriving DecidableEq, Repr

inductive GameState : Type
| PLAYING : GameState
| RESTARTING : GameState
deriving DecidableEq, Repr

structure Point where
  x : Int
  y : Int
deriving DecidableEq, Repr

structure LightCycle where
  id : Nat
  position : Point
  direction : Direction
  color : String
  glowColor : String
  alive : Bool
  pathfindingMemory : List Point
  lastDirectionChange : Nat
  movesSinceDirectionChange : Nat
deriving DecidableEq, Repr

/-- The mutable state of class `TronGame`.  `P` is the particle type of the
rendering collaborator.  The render-only fields (`config`) are omitted;
`restartDelay` is the constant `1000` (never mutated). -/
structure TronGame (P : Type) where
  grid : List (List Int)
  cycles : List LightCycle
  trailGrid : List (List Nat)
  state : GameState
  score : Int
  speed : Int
  lastMoveTime : Int
  particles : List P
  restartTime : Int
  gameStartTime : Int
  frameCount : Nat
deriving DecidableEq, Repr

def restartDelay : Int := 1000

namespace TronGame

def allDirections : List Direction :=
  [Direction.UP, Direction.DOWN, Direction.LEFT, Direction.RIGHT]

/-- `getOppositeDirection` -/
def getOppositeDirection : Direction → Direction
| Direction.UP => Direction.DOWN
| Direction.DOWN => Direction.UP
| Direction.LEFT => Direction.RIGHT
| Direction.RIGHT => Direction.LEFT

/-- The per-direction deltas of `getNextPositionInDirection`. -/
def dirDelta : Direction → Point
| Direction.UP => ⟨0, -1⟩
| Direction.DOWN => ⟨0, 1⟩
| Direction.LEFT => ⟨-1, 0⟩
| Direction.RIGHT => ⟨1, 0⟩

/-- `getNextPositionInDirection` -/
def getNextPositionInDirection (pos : Point) (d : Direction) : Point :=
  ⟨pos.x + (dirDelta d).x, pos.y + (dirDelta d).y⟩

/-- `isValidPosition`: within the 52×7 bounds. -/
def isValidPosition (p : Point) : Bool :=
  0 ≤ p.x && p.x < 52 && 0 ≤ p.y && p.y < 7

/-- Read `trailGrid[p.y][p.x]` (callers guard validity). -/
def trailAt (t : List (List Nat)) (p : Point) : Nat :=
  (t.getD p.y.toNat []).getD p.x.toNat 0

/-- Write `trailGrid[p.y][p.x] = v` (callers guard validity). -/
def setTrail (t : List (List Nat)) (p : Point) (v : Nat) : List (List Nat) :=
  t.set p.y.toNat ((t.getD p.y.toNat []).set p.x.toNat v)

/-- `checkCollision`: out of bounds, or a non-zero trail cell. -/
def checkCollision {P : Type} (g : TronGame P) (p : Point) : Bool :=
  if !isValidPosition p then true
  else trailAt g.trailGrid p != 0

/-- `getSafeDirections`: the non-reverse headings whose next cell is free. -/
def getSafeDirections {P : Type} (g : TronGame P) (c : LightCycle) : List Direction :=
  allDirections.filter fun d =>
    !(getOppositeDirection c.direction == d) &&
    !(checkCollision g (getNextPositionInDirection c.position d))

/-- The inclusive integer range `[a..b]` traversed by the renderer loops. -/
def rangeClosed (a b : Int) : List Int :=
  (List.range (b - a + 1).toNat).map fun i => a + (i : Int)

/-- `countOpenSpaceAround` -/
def countOpenSpaceAround {P : Type} (g : TronGame P) (pos : Point) (radius : Int) : Nat :=
  ((rangeClosed (-radius) radius).map fun dy =>
    ((rangeClosed (-radius) radius).filter fun dx =>
      !(dx == 0 && dy == 0) &&
      (let checkPos : Point := ⟨pos.x + dx, pos.y + dy⟩
       isValidPosition checkPos && !(checkCollision g checkPos))).length).sum

/-- `countFutureOptions` -/
def countFutureOptions {P : Type} (g : TronGame P) (pos : Point) (currentDir : Direction) : Nat :=
  (allDirections.filter fun d =>
    !(d == getOppositeDirection currentDir) &&
    !(checkCollision g (getNextPositionInDirection pos d))).length

/-- The `safetyDistance` scan of `extractFeatures`: number of consecutive
collision-free cells in direction `d`, fuel-limited (the source caps the
loop at 10 iterations). -/
def safetyScan {P : Type} (g : TronGame P) (d : Direction) : Nat → Point → Nat
| 0, _ => 0
| n + 1, p =>
  if checkCollision g p then 0
  else 1 + safetyScan g d n (getNextPositionInDirection p d)

/-- JavaScript `this.grid[p.y]?.[p.x]`: `none` models `undefined`. -/
def gridAt? (grid : List (List Int)) (p : Point) : Option Int :=
  if 0 ≤ p.y ∧ 0 ≤ p.x then
    (grid.get? p.y.toNat).bind fun row => row.get? p.x.toNat
  else none

structure Features where
  safetyDistance : Int
  openSpace : Int
  edgeDistance : Int
  pathDiversity : Int
  continuity : Int
  exploration : Int
  avoidance : Int
  futureOptions : Int
deriving DecidableEq, Repr

/-- `extractFeatures` -/
def extractFeatures {P : Type} (g : TronGame P) (c : LightCycle) (d : Direction) : Features :=
  let nextPos := getNextPositionInDirection c.position d
  { safetyDistance := (safetyScan g d 10 nextPos : Int)
    openSpace := (countOpenSpaceAround g nextPos 2 : Int)
    edgeDistance := min (min nextPos.x (51 - nextPos.x)) (min nextPos.y (6 - nextPos.y))
    pathDiversity :=
      max 0 (10 - ((c.pathfindingMemory.filter fun p =>
        decide ((p.x - nextPos.x).natAbs ≤ 2) &&
        decide ((p.y - nextPos.y).natAbs ≤ 2)).length : Int))
    continuity := if d == c.direction then 1 else 0
    exploration :=
      match gridAt? g.grid nextPos with
      | some v => if v ≤ 1 then 1 else 0
      | none => 0
    avoidance := if checkCollision g nextPos then 1 else 0
    futureOptions := (countFutureOptions g nextPos d : Int) }

/-- `neuralEvaluateDirection`: weighted sum of the eight features.  All
feature values and weights are integral, so the float arithmetic of the
source is exact and is modelled over `Int`. -/
def neuralEvaluateDirection {P : Type} (g : TronGame P) (c : LightCycle) (d : Direction) : Int :=
  let features := extractFeatures g c d
  features.safetyDistance * 15 + features.openSpace * 8 +
  features.edgeDistance * 5 + features.pathDiversity * 3 +
  features.continuity * 2 + features.exploration * 4 +
  features.avoidance * (-20) + features.futureOptions * 6

/-- Insert into a descending-sorted list, after all entries of equal score:
the insertion-sort realisation of the stable descending sort performed by
`evaluations.sort((a, b) => b.score - a.score)`. -/
def insertDesc (a : Direction × Int) : List (Direction × Int) → List (Direction × Int)
| [] => [a]
| b :: rest => if b.2 < a.2 then a :: b :: rest else b :: insertDesc a rest

/-- Stable descending sort by score (insertion sort; a stable sort of a
list under a total preorder is unique, so this agrees with the stable
`Array.prototype.sort` of the source). -/
def sortDesc (l : List (Direction × Int)) : List (Direction × Int) :=
  l.foldl (fun acc a => insertDesc a acc) []

/-- The `evaluations` array of `makeAIDecision`, sorted by descending score. -/
def sortedEvaluations {P : Type} (g : TronGame P) (c : LightCycle) : List (Direction × Int) :=
  sortDesc ((getSafeDirections g c).map fun d => (d, neuralEvaluateDirection g c d))

/-- The softmax step of `makeAIDecision`: `exp(score / 0.5)` normalised by
the sum.  Scores are exact integers but the probabilities are real. -/
noncomputable def softmaxProbs (scores : List ℝ) : List ℝ :=
  let expScores := scores.map fun s => Real.exp (s / 0.5)
  let sumExp := expScores.sum
  expScores.map fun e => e / sumExp

/-- The cumulative-probability sampling loop of `makeAIDecision`:
`cumulative += p i; if (random <= cumulative) return direction i`. -/
noncomputable def cumulativeSelect : List (Direction × ℝ) → ℝ → ℝ → Option Direction
| [], _, _ => none
| (d, p) :: rest, r, cum =>
  if r ≤ cum + p then some d else cumulativeSelect rest r (cum + p)

/-- `makeAIDecision`, with the `Math.random()` draw passed in as `r`. -/
noncomputable def makeAIDecision {P : Type} (g : TronGame P) (c : LightCycle) (r : ℝ) :
    Direction :=
  if getSafeDirections g c = [] then c.direction
  else
    let evals := sortedEvaluations g c
    let probs := softmaxProbs (evals.map fun e => (e.2 : ℝ))
    match cumulativeSelect ((evals.map fun e => e.1).zip probs) r 0 with
    | some d => d
    | none => (evals.headD (c.direction, 0)).1

/-- The decision actually taken when the draw is `r = 0`: the top-scoring
candidate (see `makeAIDecision_zero`).  Computable avatar used to evaluate
concrete traces. -/
def makeAIDecisionTop {P : Type} (g : TronGame P) (c : LightCycle) : Direction :=
  if getSafeDirections g c = [] then c.direction
  else ((sortedEvaluations g c).headD (c.direction, 0)).1

/-- One iteration of the `aliveCycles.forEach` body of `update`, acting on
the cycle at index `i`; `mkExp` is the renderer's `createExplosion` and `r`
the decision draw. -/
noncomputable def processCycle {P : Type} (mkExp : Int → Int → List P) (r : ℝ)
    (g : TronGame P) (i : Nat) : TronGame P :=
  match g.cycles.get? i with
  | none => g
  | some c =>
    let newDirection := makeAIDecision g c r
    let c1 :=
      if newDirection ≠ c.direction then
        { c with lastDirectionChange := g.frameCount, movesSinceDirectionChange := 0 }
      else
        { c with movesSinceDirectionChange := c.movesSinceDirectionChange + 1 }
    let c2 := { c1 with direction := newDirection }
    let nextPos := getNextPositionInDirection c2.position c2.direction
    if checkCollision g nextPos then
      { g with
        cycles := g.cycles.set i { c2 with alive := false }
        particles := g.particles ++ mkExp c2.position.x c2.position.y }
    else
      let mem1 := c2.pathfindingMemory ++ [c2.position]
      let mem2 := if mem1.length > 20 then mem1.tail else mem1
      { g with
        cycles := g.cycles.set i
          { c2 with pathfindingMemory := mem2, position := nextPos }
        trailGrid :=
          if isValidPosition c2.position then setTrail g.trailGrid c2.position c2.id
          else g.trailGrid }

/-- Computable avatar of `processCycle` for the draw `r = 0`. -/
def processCycleTop {P : Type} (mkExp : Int → Int → List P)
    (g : TronGame P) (i : Nat) : TronGame P :=
  match g.cycles.get? i with
  | none => g
  | some c =>
    let newDirection := makeAIDecisionTop g c
    let c1 :=
      if newDirection ≠ c.direction then
        { c with lastDirectionChange := g.frameCount, movesSinceDirectionChange := 0 }
      else
        { c with movesSinceDirectionChange := c.movesSinceDirectionChange + 1 }
    let c2 := { c1 with direction := newDirection }
    let nextPos := getNextPositionInDirection c2.position c2.direction
    if checkCollision g nextPos then
      { g with
        cycles := g.cycles.set i { c2 with alive := false }
        particles := g.particles ++ mkExp c2.position.x c2.position.y }
    else
      let mem1 := c2.pathfindingMemory ++ [c2.position]
      let mem2 := if mem1.length > 20 then mem1.tail else mem1
      { g with
        cycles := g.cycles.set i
          { c2 with pathfindingMemory := mem2, position := nextPos }
        trailGrid :=
          if isValidPosition c2.position then setTrail g.trailGrid c2.position c2.id
          else g.trailGrid }

/-- Indices (in list order) of the cycles captured by
`this.cycles.filter(c => c.alive)` at the start of a move tick. -/
def aliveIndices {P : Type} (g : TronGame P) : List Nat :=
  (List.range g.cycles.length).filter fun i =>
    ((g.cycles.get? i).map fun c => c.alive).getD false

def cycleColors : List (String × String) :=
  [("#00ffff", "#00ffff"), ("#ff4757", "#ff4757"),
   ("#ffa502", "#ffa502"), ("#7bed9f", "#7bed9f")]

/-- `getStartPositions(4)` -/
def startCorners : List Point := [⟨8, 1⟩, ⟨43, 1⟩, ⟨8, 5⟩, ⟨43, 5⟩]

/-- `getRandomDirection`: `directions[Math.floor(r * 4)]` for a draw
`r ∈ [0,1)`.  `⌊r·4⌋` is computed as `⌊(num·4)/den⌋` on the rational's
normalised representation (the `UP` default is unreachable for in-range
draws). -/
def getRandomDirection (r : ℚ) : Direction :=
  allDirections.getD ((r.num * 4).fdiv (r.den : Int)).toNat Direction.UP

/-- `createCycles`, with the four `Math.random()` draws passed in. -/
def createCycles (rnd : Fin 4 → ℚ) : List LightCycle :=
  (List.finRange 4).map fun i : Fin 4 =>
    { id := (i : Nat) + 1
      position := startCorners.getD (i : Nat) ⟨0, 0⟩
      direction := getRandomDirection (rnd i)
      color := (cycleColors.getD (i : Nat) ("", "")).1
      glowColor := (cycleColors.getD (i : Nat) ("", "")).2
      alive := true
      pathfindingMemory := []
      lastDirectionChange := 0
      movesSinceDirectionChange := 0 }

def zeroTrail : List (List Nat) := List.replicate 7 (List.replicate 52 0)

/-- `reset`, with `performance.now()` passed as `now` and the four
initial-heading draws as `rnd`. -/
def reset {P : Type} (now : Int) (rnd : Fin 4 → ℚ) (g : TronGame P) : TronGame P :=
  let cycles := createCycles rnd
  { g with
    state := GameState.PLAYING
    score := 0
    speed := 200
    lastMoveTime := 0
    particles := []
    gameStartTime := now
    frameCount := 0
    trailGrid := cycles.foldl
      (fun t c => if isValidPosition c.position then setTrail t c.position c.id else t)
      zeroTrail
    cycles := cycles }

/-- `initiateRestart` -/
def initiateRestart {P : Type} (mkExp : Int → Int → List P) (currentTime : Int)
    (g : TronGame P) : TronGame P :=
  { g with
    state := GameState.RESTARTING
    restartTime := currentTime
    particles := (g.cycles.filter fun c => c.alive).foldl
      (fun ps c => ps ++ mkExp c.position.x c.position.y) g.particles }

/-- `trailGrid.flat().filter(cell => cell > 0).length` -/
def trailCellCount (t : List (List Nat)) : Nat :=
  (t.flatten.filter fun cell => decide (cell > 0)).length

/-- `update(currentTime)`.  `up` is the renderer's `updateParticles`,
`mkExp` its `createExplosion`; `rnd` supplies the heading draws of a
potential mid-call `reset`, and `rdec k` the decision draw of the `k`-th
processed cycle. -/
noncomputable def update {P : Type} (up : List P → List P)
    (mkExp : Int → Int → List P) (rnd : Fin 4 → ℚ) (rdec : Nat → ℝ)
    (currentTime : Int) (g : TronGame P) : TronGame P :=
  let g1 := { g with frameCount := g.frameCount + 1, particles := up g.particles }
  if g1.state = GameState.RESTARTING then
    if currentTime - g1.restartTime > restartDelay then reset currentTime rnd g1 else g1
  else if currentTime - g1.lastMoveTime < g1.speed then g1
  else
    let alive := aliveIndices g1
    if alive.length ≤ 1 then initiateRestart mkExp currentTime g1
    else
      let g2 := alive.enum.foldl (fun s ki => processCycle mkExp (rdec ki.1) s ki.2) g1
      let survivalTime := (currentTime - g2.gameStartTime).fdiv 1000
      { g2 with
        score := survivalTime * 10 + (alive.length : Int) * 5 +
          (trailCellCount g2.trailGrid : Int)
        speed := max 80 (200 - ((currentTime - g2.gameStartTime).fdiv 10000) * 20)
        lastMoveTime := currentTime }

/-- Computable avatar of `update` for all-zero decision draws. -/
def updateTop {P : Type} (up : List P → List P)
    (mkExp : Int → Int → List P) (rnd : Fin 4 → ℚ)
    (currentTime : Int) (g : TronGame P) : TronGame P :=
  let g1 := { g with frameCount := g.frameCount + 1, particles := up g.particles }
  if g1.state = GameState.RESTARTING then
    if currentTime - g1.restartTime > restartDelay then reset currentTime rnd g1 else g1
  else if currentTime - g1.lastMoveTime < g1.speed then g1
  else
    let alive := aliveIndices g1
    if alive.length ≤ 1 then initiateRestart mkExp currentTime g1
    else
      let g2 := alive.enum.foldl (fun s ki => processCycleTop mkExp s ki.2) g1
      let survivalTime := (currentTime - g2.gameStartTime).fdiv 1000
      { g2 with
        score := survivalTime * 10 + (alive.length : Int) * 5 +
          (trailCellCount g2.trailGrid : Int)
        speed := max 80 (200 - ((currentTime - g2.gameStartTime).fdiv 10000) * 20)
        lastMoveTime := currentTime }

/-- The `TronGame` constructor: field initialisers followed by `reset()`. -/
def initGame {P : Type} (grid : List (List Int)) (now : Int) (rnd : Fin 4 → ℚ) :
    TronGame P :=
  reset now rnd
    { grid := grid
      cycles := []
      trailGrid := zeroTrail
      state := GameState.PLAYING
      score := 0
      speed := 200
      lastMoveTime := 0
      particles := []
      restartTime := 0
      gameStartTime := 0
      frameCount := 0 }

/-- `getAliveCycles` -/
def getAliveCycles {P : Type} (g : TronGame P) : List LightCycle :=
  g.cycles.filter fun c => c.alive

/-! ### Two concrete reachable executions

Both runs start from the constructor (`initGame`) on an all-zero activity
grid at time `0` and call `update` every 200 ms, with every per-decision
draw equal to `0` (so each agent picks its top-scoring candidate) and the
particle collaborator instantiated trivially.  `runA` spawns the agents
with headings `[UP, UP, LEFT, RIGHT]` (draws `0, 0, 1/2, 3/4`), `runB`
with all headings `UP` (draws all `0`). -/

def grid0 : List (List Int) := List.replicate 7 (List.replicate 52 0)

def qHalf : ℚ := ⟨1, 2, by decide, by decide⟩

def qThreeQuarters : ℚ := ⟨3, 4, by decide, by decide⟩

def rndA : Fin 4 → ℚ
| ⟨0, _⟩ => 0
| ⟨1, _⟩ => 0
| ⟨2, _⟩ => qHalf
| _ => qThreeQuarters

def rndB : Fin 4 → ℚ := fun _ => 0

noncomputable def runA : Nat → TronGame Unit
| 0 => initGame grid0 0 rndA
| n + 1 =>
  update (fun l => l) (fun _ _ => []) rndA (fun _ => 0) (200 * ((n : Int) + 1)) (runA n)

def runTopA : Nat → TronGame Unit
| 0 => initGame grid0 0 rndA
| n + 1 => updateTop (fun l => l) (fun _ _ => []) rndA (200 * ((n : Int) + 1)) (runTopA n)

noncomputable def runB : Nat → TronGame Unit
| 0 => initGame grid0 0 rndB
| n + 1 =>
  update (fun l => l) (fun _ _ => []) rndB (fun _ => 0) (200 * ((n : Int) + 1)) (runB n)

def runTopB : Nat → TronGame Unit
| 0 => initGame grid0 0 rndB
| n + 1 => updateTop (fun l => l) (fun _ _ => []) rndB (200 * ((n : Int) + 1)) (runTopB n)

/-! ### Concrete witness states

`gTwo` is a mid-round state with two alive agents: agent 1 at `(1,1)`
heading `UP` with its three non-reverse neighbour cells blocked by trail
id 2, and agent 2 free at `(10,3)`.  `gSolo` has the same boxed agent as
its only survivor (agents 2–4 dead).  `gWait` is a `RESTARTING` state
whose delay has not elapsed at time 500 but has at time 1500. -/

def cycBoxed : LightCycle :=
  { id := 1, position := ⟨1, 1⟩, direction := Direction.UP, color := "c", glowColor := "c",
    alive := true, pathfindingMemory := [], lastDirectionChange := 0,
    movesSinceDirectionChange := 0 }

def cycFree : LightCycle :=
  { id := 2, position := ⟨10, 3⟩, direction := Direction.RIGHT, color := "c", glowColor := "c",
    alive := true, pathfindingMemory := [], lastDirectionChange := 0,
    movesSinceDirectionChange := 0 }

def deadCycle (i : Nat) : LightCycle :=
  { id := i, position := ⟨30, 3⟩, direction := Direction.LEFT, color := "c", glowColor := "c",
    alive := false, pathfindingMemory := [], lastDirectionChange := 0,
    movesSinceDirectionChange := 0 }

def boxedTrail : List (List Nat) :=
  setTrail (setTrail (setTrail zeroTrail ⟨1, 0⟩ 2) ⟨0, 1⟩ 2) ⟨2, 1⟩ 2

def gTwo : TronGame Unit :=
  { grid := grid0, cycles := [cycBoxed, cycFree], trailGrid := boxedTrail,
    state := GameState.PLAYING, score := 0, speed := 200, lastMoveTime := 0,
    particles := [], restartTime := 0, gameStartTime := 0, frameCount := 0 }

def gSolo : TronGame Unit :=
  { grid := grid0, cycles := [cycBoxed, deadCycle 2, deadCycle 3, deadCycle 4],
    trailGrid := boxedTrail, state := GameState.PLAYING, score := 0, speed := 200,
    lastMoveTime := 0, particles := [], restartTime := 0, gameStartTime := 0,
    frameCount := 0 }

def gWait : TronGame Unit :=
  { grid := grid0, cycles := [cycBoxed, cycFree], trailGrid := boxedTrail,
    state := GameState.RESTARTING, score := 7, speed := 200, lastMoveTime := 0,
    particles := [], restartTime := 0, gameStartTime := 0, frameCount := 3 }

/-! ### Structural lemmas about the sorted candidate list and the
softmax selection -/

lemma insertDesc_length (a : Direction × Int) (l : List (Direction × Int)) :
    (insertDesc a l).length = l.length + 1 := by
  induction l with
  | nil => rfl
  | cons b rest ih =>
    simp only [insertDesc]
    by_cases h : b.2 < a.2
    · simp [h]
    · simp [h, ih]

lemma foldl_insertDesc_length (l : List (Direction × Int)) :
    ∀ acc : List (Direction × Int),
      (l.foldl (fun acc a => insertDesc a acc) acc).length = acc.length + l.length := by
  induction l with
  | nil => intro acc; simp
  | cons a rest ih =>
    intro acc
    simp only [List.foldl_cons, ih, insertDesc_length, List.length_cons]
    omega

lemma sortDesc_length (l : List (Direction × Int)) :
    (sortDesc l).length = l.length := by
  simpa using foldl_insertDesc_length l []

lemma insertDesc_mem {b : Direction × Int} {a : Direction × Int}
    {l : List (Direction × Int)} (h : b ∈ insertDesc a l) : b = a ∨ b ∈ l := by
  induction l with
  | nil => simpa [insertDesc] using h
  | cons c rest ih =>
    simp only [insertDesc] at h
    by_cases hc : c.2 < a.2
    · simp only [hc, if_true, List.mem_cons] at h
      rcases h with h | h | h
      · exact Or.inl h
      · exact Or.inr (by simp [h])
      · exact Or.inr (by simp [h])
    · simp only [hc, if_false, List.mem_cons] at h
      rcases h with h | h
      · exact Or.inr (by simp [h])
      · rcases ih h with h | h
        · exact Or.inl h
        · exact Or.inr (by simp [h])

lemma foldl_insertDesc_mem (l : List (Direction × Int)) :
    ∀ (acc : List (Direction × Int)) (b : Direction × Int),
      b ∈ l.foldl (fun acc a => insertDesc a acc) acc → b ∈ acc ∨ b ∈ l := by
  induction l with
  | nil => intro acc b hacc; exact Or.inl hacc
  | cons a rest ih =>
    intro acc b hacc
    simp only [List.foldl_cons] at hacc
    rcases ih (insertDesc a acc) b hacc with hc | hc
    · rcases insertDesc_mem hc with hc | hc
      · exact Or.inr (by simp [hc])
      · exact Or.inl hc
    · exact Or.inr (by simp [hc])

lemma sortDesc_mem {b : Direction × Int} {l : List (Direction × Int)}
    (h : b ∈ sortDesc l) : b ∈ l := by
  rcases foldl_insertDesc_mem l [] b h with hc | hc
  · simp at hc
  · exact hc

lemma cumulativeSelect_mem {l : List (Direction × ℝ)} {r cum : ℝ} {d : Direction}
    (h : cumulativeSelect l r cum = some d) : d ∈ l.map fun e => e.1 := by
  induction l generalizing cum with
  | nil => simp [cumulativeSelect] at h
  | cons a rest ih =>
    simp only [cumulativeSelect] at h
    by_cases hr : r ≤ cum + a.2
    · simp only [hr, if_true, Option.some.injEq] at h
      simp [← h]
    · simp only [hr, if_false] at h
      simpa using Or.inr (ih h)

lemma softmaxProbs_sum_pos (scores : List ℝ) (h : scores ≠ []) :
    0 < (scores.map fun s => Real.exp (s / 0.5)).sum := by
  rcases scores with _ | ⟨s, rest⟩
  · exact absurd rfl h
  · have h1 : 0 < Real.exp (s / 0.5) := Real.exp_pos _
    have h2 : 0 ≤ (rest.map fun s => Real.exp (s / 0.5)).sum := by
      apply List.sum_nonneg
      intro x hx
      rcases List.mem_map.mp hx with ⟨y, _, rfl⟩
      exact (Real.exp_pos _).le
    simp only [List.map_cons, List.sum_cons]
    linarith

/-- With the draw `r = 0`, the cumulative-probability loop returns the
first candidate of the zipped list: its probability is strictly positive. -/
lemma cumulativeSelect_softmax_zero (d0 : Direction) (ds : List Direction)
    (s0 : ℝ) (ss : List ℝ) :
    cumulativeSelect ((d0 :: ds).zip (softmaxProbs (s0 :: ss))) 0 0 = some d0 := by
  have hS : 0 < ((s0 :: ss).map fun s => Real.exp (s / 0.5)).sum :=
    softmaxProbs_sum_pos _ (List.cons_ne_nil _ _)
  simp only [softmaxProbs, List.map_cons, List.zip_cons_cons, cumulativeSelect]
  rw [if_pos]
  rw [zero_add]
  apply div_nonneg (Real.exp_pos _).le
  simpa using hS.le

/-- With the draw `r = 0`, `makeAIDecision` returns the top-scoring
candidate. -/
lemma makeAIDecision_zero {P : Type} (g : TronGame P) (c : LightCycle) :
    makeAIDecision g c 0 = makeAIDecisionTop g c := by
  unfold makeAIDecision makeAIDecisionTop
  by_cases h : getSafeDirections g c = []
  · simp [h]
  · simp only [h, if_false]
    have hlen : (sortedEvaluations g c).length = (getSafeDirections g c).length := by
      simp [sortedEvaluations, sortDesc_length]
    rcases hev : sortedEvaluations g c with _ | ⟨e, rest⟩
    · rw [hev] at hlen
      exact absurd (List.length_eq_zero.mp hlen.symm) h
    · simp only [List.map_cons, cumulativeSelect_softmax_zero, List.headD_cons]

lemma processCycle_zero {P : Type} (mkExp : Int → Int → List P)
    (g : TronGame P) (i : Nat) :
    processCycle mkExp 0 g i = processCycleTop mkExp g i := by
  unfold processCycle processCycleTop
  simp only [makeAIDecision_zero]

lemma update_zero {P : Type} (up : List P → List P) (mkExp : Int → Int → List P)
    (rnd : Fin 4 → ℚ) (currentTime : Int) (g : TronGame P) :
    update up mkExp rnd (fun _ => 0) currentTime g = updateTop up mkExp rnd currentTime g := by
  unfold update updateTop
  have hfold : (fun (s : TronGame P) (ki : Nat × Nat) =>
      processCycle mkExp ((fun _ => (0 : ℝ)) ki.1) s ki.2) =
      fun s ki => processCycleTop mkExp s ki.2 := by
    funext s ki
    exact processCycle_zero mkExp s ki.2
  rw [hfold]

lemma runA_eq (n : Nat) : runA n = runTopA n := by
  induction n with
  | zero => rfl
  | succ n ih => rw [runA, runTopA, ih, update_zero]

lemma runB_eq (n : Nat) : runB n = runTopB n := by
  induction n with
  | zero => rfl
  | succ n ih => rw [runB, runTopB, ih, update_zero]

set_option maxRecDepth 1000000 in
set_option maxHeartbeats 8000000 in
/-- Evaluation of run A at ticks 21 and 22: agent 4 left cell `(27,3)`
during tick 21 (writing id 4) while agent 1 stepped onto it, and agent 1
left it during tick 22 (writing id 1); both states are mid-round. -/
lemma runA_facts :
    trailAt (runTopA 21).trailGrid ⟨27, 3⟩ = 4 ∧
    trailAt (runTopA 22).trailGrid ⟨27, 3⟩ = 1 ∧
    (runTopA 21).state = GameState.PLAYING ∧
    (runTopA 22).state = GameState.PLAYING := by decide

set_option maxRecDepth 1000000 in
set_option maxHeartbeats 40000000 in
/-- Evaluation of run B at the ticks used by the counterexamples: the
tick-20 shared cell, the tick-39 death, the tick-40 drop to one alive
agent with the state still `PLAYING`, and the tick-47 reset. -/
lemma runB_facts :
    (((runTopB 20).cycles.get? 0).map fun c => (c.position, c.alive)) =
      some (⟨26, 3⟩, true) ∧
    (((runTopB 20).cycles.get? 2).map fun c => (c.position, c.alive)) =
      some (⟨26, 3⟩, true) ∧
    (runTopB 20).state = GameState.PLAYING ∧
    (runTopB 38).state = GameState.PLAYING ∧
    (runTopB 38).lastMoveTime = 7600 ∧
    (runTopB 38).speed = 200 ∧
    (getAliveCycles (runTopB 38)).length = 4 ∧
    (runTopB 39).score = 226 ∧
    (getAliveCycles (runTopB 39)).length = 3 ∧
    trailCellCount (runTopB 39).trailGrid = 136 ∧
    (runTopB 39).gameStartTime = 0 ∧
    (runTopB 39).state = GameState.PLAYING ∧
    (getAliveCycles (runTopB 40)).length = 1 ∧
    (runTopB 40).state = GameState.PLAYING ∧
    (runTopB 41).state = GameState.RESTARTING ∧
    (runTopB 41).restartTime = 8200 ∧
    (runTopB 46).state = GameState.RESTARTING ∧
    (runTopB 47).state = GameState.PLAYING ∧
    trailAt (runTopB 47).trailGrid ⟨8, 1⟩ = 1 ∧
    (runTopB 47).score = 0 ∧
    (runTopB 47).speed = 200 ∧
    (runTopB 47).gameStartTime = 9400 ∧
    ((runTopB 47).cycles.map fun c => (c.id, c.position, c.alive)) =
      [(1, ⟨8, 1⟩, true), (2, ⟨43, 1⟩, true), (3, ⟨8, 5⟩, true), (4, ⟨43, 5⟩, true)] := by
  decide

/-! ### Direction and candidate-set lemmas -/

lemma mem_allDirections (d : Direction) : d ∈ allDirections := by
  cases d <;> simp [allDirections]

lemma getOppositeDirection_ne (d : Direction) : getOppositeDirection d ≠ d := by
  cases d <;> simp [getOppositeDirection]

lemma ne_opposite_of_mem_safe {P : Type} {g : TronGame P} {c : LightCycle}
    {d : Direction} (h : d ∈ getSafeDirections g c) :
    d ≠ getOppositeDirection c.direction := by
  unfold getSafeDirections at h
  rcases List.mem_filter.mp h with ⟨-, hp⟩
  simp only [Bool.and_eq_true, Bool.not_eq_true', beq_eq_false_iff_ne] at hp
  exact fun hd => hp.1 hd.symm

lemma not_collision_of_mem_safe {P : Type} {g : TronGame P} {c : LightCycle}
    {d : Direction} (h : d ∈ getSafeDirections g c) :
    checkCollision g (getNextPositionInDirection c.position d) = false := by
  unfold getSafeDirections at h
  rcases List.mem_filter.mp h with ⟨-, hp⟩
  simp only [Bool.and_eq_true, Bool.not_eq_true'] at hp
  exact hp.2

lemma getSafeDirections_eq_nil {P : Type} {g : TronGame P} {c : LightCycle}
    (h : ∀ d ∈ allDirections, d ≠ getOppositeDirection c.direction →
      checkCollision g (getNextPositionInDirection c.position d) = true) :
    getSafeDirections g c = [] := by
  unfold getSafeDirections
  apply List.filter_eq_nil_iff.mpr
  intro d hd
  by_cases hopp : getOppositeDirection c.direction = d
  · simp [hopp]
  · simp [hopp, h d hd (fun he => hopp he.symm)]

lemma makeAIDecision_of_empty {P : Type} {g : TronGame P} {c : LightCycle}
    (h : getSafeDirections g c = []) (r : ℝ) : makeAIDecision g c r = c.direction := by
  unfold makeAIDecision
  simp [h]

lemma sortedEvaluations_fst_mem {P : Type} {g : TronGame P} {c : LightCycle}
    {e : Direction × Int} (h : e ∈ sortedEvaluations g c) :
    e.1 ∈ getSafeDirections g c := by
  unfold sortedEvaluations at h
  rcases List.mem_map.mp (sortDesc_mem h) with ⟨d, hd, he⟩
  rw [← he]
  exact hd

lemma makeAIDecision_mem {P : Type} {g : TronGame P} {c : LightCycle}
    (h : getSafeDirections g c ≠ []) (r : ℝ) :
    makeAIDecision g c r ∈ getSafeDirections g c := by
  unfold makeAIDecision
  simp only [h, if_false]
  have hlen : (sortedEvaluations g c).length = (getSafeDirections g c).length := by
    simp [sortedEvaluations, sortDesc_length]
  have hne : sortedEvaluations g c ≠ [] := by
    intro hnil
    rw [hnil] at hlen
    exact h (List.length_eq_zero.mp hlen.symm)
  rcases hsel : cumulativeSelect
      (((sortedEvaluations g c).map fun e => e.1).zip
        (softmaxProbs ((sortedEvaluations g c).map fun e => (e.2 : ℝ)))) r 0 with _ | d
  · rw [hsel]
    rcases hev : sortedEvaluations g c with _ | ⟨e, rest⟩
    · exact absurd hev hne
    · exact sortedEvaluations_fst_mem
        (show e ∈ sortedEvaluations g c by rw [hev]; exact List.mem_cons_self e rest)
  · rw [hsel]
    have hmem := cumulativeSelect_mem hsel
    rcases List.mem_map.mp hmem with ⟨pr, hpr, hprd⟩
    rcases pr with ⟨d1, p1⟩
    have h1 : d1 ∈ (sortedEvaluations g c).map fun e => e.1 := (List.of_mem_zip hpr).1
    rcases List.mem_map.mp h1 with ⟨e, he, hde⟩
    rw [← hprd, ← hde]
    exact sortedEvaluations_fst_mem he

lemma makeAIDecision_ne_opposite {P : Type} (g : TronGame P) (c : LightCycle) (r : ℝ) :
    makeAIDecision g c r ≠ getOppositeDirection c.direction := by
  by_cases h : getSafeDirections g c = []
  · rw [makeAIDecision_of_empty h]
    exact fun he => getOppositeDirection_ne c.direction he.symm
  · exact ne_opposite_of_mem_safe (makeAIDecision_mem h r)

/-! ### Trail-grid write lemmas -/

lemma getD_set_eq_of_lt {α : Type} (l : List α) (j : Nat) (a d : α)
    (hj : j < l.length) : (l.set j a).getD j d = a := by
  rw [List.getD_eq_getD_get?, List.get?_set_eq_of_lt _ hj, Option.getD_some]

lemma getD_set_ne {α : Type} (l : List α) {i j : Nat} (a d : α)
    (hij : i ≠ j) : (l.set i a).getD j d = l.getD j d := by
  rw [List.getD_eq_getD_get?, List.get?_set_ne _ _ hij, ← List.getD_eq_getD_get?]

lemma trailAt_setTrail_ne_zero {t : List (List Nat)} {p : Point} (q : Point)
    {v : Nat} (hv : v ≠ 0) (h : trailAt t p ≠ 0) :
    trailAt (setTrail t q v) p ≠ 0 := by
  unfold trailAt at h
  unfold trailAt setTrail
  by_cases hy : p.y.toNat = q.y.toNat
  · have hj : q.y.toNat < t.length := by
      by_contra hge
      rw [hy, List.getD_eq_default _ _ (Nat.le_of_not_lt hge)] at h
      simp at h
    rw [hy] at h ⊢
    rw [getD_set_eq_of_lt _ _ _ _ hj]
    by_cases hx : p.x.toNat = q.x.toNat
    · have hk : q.x.toNat < (t.getD q.y.toNat []).length := by
        by_contra hge
        rw [hx, List.getD_eq_default _ _ (Nat.le_of_not_lt hge)] at h
        exact h rfl
      rw [hx, getD_set_eq_of_lt _ _ _ _ hk]
      exact hv
    · rw [getD_set_ne _ _ _ fun he => hx he.symm]
      exact h
  · rw [getD_set_ne _ _ _ fun he => hy he.symm]
    exact h

/-! ### Generic fold preservation -/

lemma foldl_preserves {α β : Type} {f : α → β → α} {p : α → Prop}
    (hstep : ∀ a b, p a → p (f a b)) :
    ∀ (l : List β) (a : α), p a → p (l.foldl f a) := by
  intro l
  induction l with
  | nil => intro a ha; exact ha
  | cons b rest ih =>
    intro a ha
    exact ih (f a b) (hstep a b ha)

lemma mem_enumFrom_of_mem {α : Type} {a : α} :
    ∀ {l : List α} (n : Nat), a ∈ l → ∃ x ∈ List.enumFrom n l, x.2 = a := by
  intro l
  induction l with
  | nil => intro n h; simp at h
  | cons b rest ih =>
    intro n h
    rcases List.mem_cons.mp h with h | h
    · exact ⟨(n, b), List.mem_cons_self _ _, h.symm⟩
    · rcases ih (n + 1) h with ⟨x, hx, hxa⟩
      exact ⟨x, List.mem_cons_of_mem _ hx, hxa⟩

lemma mem_enum_of_mem {α : Type} {a : α} {l : List α} (h : a ∈ l) :
    ∃ x ∈ l.enum, x.2 = a :=
  mem_enumFrom_of_mem 0 h

/-! ### Collision-predicate lemmas -/

lemma checkCollision_eq_true_iff {P : Type} (g : TronGame P) (p : Point) :
    checkCollision g p = true ↔
      (isValidPosition p = false ∨ trailAt g.trailGrid p ≠ 0) := by
  unfold checkCollision
  by_cases hv : isValidPosition p <;> simp [hv]

lemma checkCollision_of_invalid {P : Type} (g : TronGame P) {p : Point}
    (h : isValidPosition p = false) : checkCollision g p = true :=
  (checkCollision_eq_true_iff g p).mpr (Or.inl h)

lemma valid_of_checkCollision_false {P : Type} {g : TronGame P} {p : Point}
    (h : checkCollision g p = false) : isValidPosition p = true := by
  unfold checkCollision at h
  by_cases hv : isValidPosition p
  · exact hv
  · simp [hv] at h

/-! ### Single-agent step lemmas (the `forEach` body of `update`) -/

lemma processCycle_get_ne {P : Type} (mkExp : Int → Int → List P) (r : ℝ)
    (g : TronGame P) (i j : Nat) (hij : j ≠ i) :
    (processCycle mkExp r g i).cycles.get? j = g.cycles.get? j := by
  rcases hget : g.cycles.get? i with _ | c
  · simp only [processCycle, hget]
  · simp only [processCycle, hget]
    split <;> split <;>
      simp only [List.get?_set_ne _ _ fun he => hij he.symm]

lemma processCycle_collision_preserved {P : Type} (mkExp : Int → Int → List P)
    (r : ℝ) (g : TronGame P) (i : Nat) (p : Point)
    (hids : ∀ c ∈ g.cycles, c.id ≠ 0)
    (h : checkCollision g p = true) :
    checkCollision (processCycle mkExp r g i) p = true := by
  rcases hget : g.cycles.get? i with _ | c
  · simpa only [processCycle, hget] using h
  · have hcid : c.id ≠ 0 := hids c (List.get?_mem hget)
    simp only [processCycle, hget]
    rcases (checkCollision_eq_true_iff g p).mp h with hv | ht
    · split <;> split <;> exact checkCollision_of_invalid _ hv
    · split <;> split
      · exact h
      · apply (checkCollision_eq_true_iff _ p).mpr
        refine Or.inr ?_
        dsimp only
        split
        · exact trailAt_setTrail_ne_zero _ hcid ht
        · exact ht
      · exact h
      · apply (checkCollision_eq_true_iff _ p).mpr
        refine Or.inr ?_
        dsimp only
        split
        · exact trailAt_setTrail_ne_zero _ hcid ht
        · exact ht

lemma processCycle_trail_nonzero {P : Type} (mkExp : Int → Int → List P)
    (r : ℝ) (g : TronGame P) (i : Nat) (p : Point)
    (hids : ∀ c ∈ g.cycles, c.id ≠ 0)
    (h : trailAt g.trailGrid p ≠ 0) :
    trailAt (processCycle mkExp r g i).trailGrid p ≠ 0 := by
  rcases hget : g.cycles.get? i with _ | c
  · simpa only [processCycle, hget] using h
  · have hcid : c.id ≠ 0 := hids c (List.get?_mem hget)
    simp only [processCycle, hget]
    split <;> split
    · exact h
    · dsimp only
      split
      · exact trailAt_setTrail_ne_zero _ hcid h
      · exact h
    · exact h
    · dsimp only
      split
      · exact trailAt_setTrail_ne_zero _ hcid h
      · exact h

lemma processCycle_ids_preserved {P : Type} (mkExp : Int → Int → List P)
    (r : ℝ) (g : TronGame P) (i : Nat)
    (hids : ∀ c ∈ g.cycles, c.id ≠ 0) :
    ∀ c ∈ (processCycle mkExp r g i).cycles, c.id ≠ 0 := by
  rcases hget : g.cycles.get? i with _ | c
  · simpa only [processCycle, hget] using hids
  · have hcid : c.id ≠ 0 := hids c (List.get?_mem hget)
    simp only [processCycle, hget]
    intro c' hc'
    split at hc' <;> split at hc' <;>
      rcases List.mem_or_eq_of_mem_set hc' with hmem | heq <;>
      first
      | exact hids _ hmem
      | (rw [heq]; exact hcid)

lemma processCycle_gameStartTime {P : Type} (mkExp : Int → Int → List P)
    (r : ℝ) (g : TronGame P) (i : Nat) :
    (processCycle mkExp r g i).gameStartTime = g.gameStartTime := by
  rcases hget : g.cycles.get? i with _ | c
  · simp only [processCycle, hget]
  · simp only [processCycle, hget]
    split <;> split <;> rfl

/-- A cycle with no safe candidate keeps its heading, and that heading's
next cell is blocked, so the step marks it dead. -/
lemma processCycle_kills {P : Type} (mkExp : Int → Int → List P) (r : ℝ)
    {g : TronGame P} {i : Nat} {c : LightCycle}
    (hget : g.cycles.get? i = some c)
    (hsafe : getSafeDirections g c = [])
    (hcoll : checkCollision g (getNextPositionInDirection c.position c.direction) = true) :
    ∃ c2, (processCycle mkExp r g i).cycles.get? i = some c2 ∧ c2.alive = false := by
  have hi : i < g.cycles.length := (List.get?_eq_some.mp hget).1
  have hdec : makeAIDecision g c r = c.direction := makeAIDecision_of_empty hsafe r
  simp only [processCycle, hget, hdec, ne_eq, not_true_eq_false, if_false, hcoll, if_true]
  exact ⟨_, List.get?_set_eq_of_lt _ hi, rfl⟩

/-- A dead cycle stays dead through a step (the step never revives). -/
lemma processCycle_dead_stays {P : Type} (mkExp : Int → Int → List P) (r : ℝ)
    {g : TronGame P} {i : Nat} {c : LightCycle}
    (hget : g.cycles.get? i = some c) (hdead : c.alive = false) :
    ∃ c2, (processCycle mkExp r g i).cycles.get? i = some c2 ∧ c2.alive = false := by
  have hi : i < g.cycles.length := (List.get?_eq_some.mp hget).1
  simp only [processCycle, hget]
  split <;> split
  · exact ⟨_, List.get?_set_eq_of_lt _ hi, rfl⟩
  · exact ⟨_, List.get?_set_eq_of_lt _ hi, hdead⟩
  · exact ⟨_, List.get?_set_eq_of_lt _ hi, rfl⟩
  · exact ⟨_, List.get?_set_eq_of_lt _ hi, hdead⟩

/-- A dead cycle stays dead through the whole per-tick fold. -/
lemma foldl_processCycle_dead {P : Type} (mkExp : Int → Int → List P)
    (rd : Nat → ℝ) (i : Nat) :
    ∀ (l : List (Nat × Nat)) (g : TronGame P),
      (∃ c2, g.cycles.get? i = some c2 ∧ c2.alive = false) →
      ∃ c2, ((l.foldl (fun s ki => processCycle mkExp (rd ki.1) s ki.2) g).cycles.get? i
        = some c2) ∧ c2.alive = false := by
  intro l
  induction l with
  | nil => intro g h; exact h
  | cons x rest ih =>
    intro g h
    rcases h with ⟨c2, hget, hdead⟩
    rw [List.foldl_cons]
    apply ih
    show ∃ c2, (processCycle mkExp (rd x.1) g x.2).cycles.get? i = some c2 ∧
      c2.alive = false
    by_cases hx : x.2 = i
    · rw [hx]
      exact processCycle_dead_stays mkExp (rd x.1) hget hdead
    · exact ⟨c2, (processCycle_get_ne mkExp (rd x.1) g x.2 i
        fun he => hx he.symm).trans hget, hdead⟩

/-- Through the per-tick fold, an alive agent whose three non-reverse
neighbour cells are all blocked ends the tick dead, provided its index is
processed. -/
lemma foldl_processCycle_kills {P : Type} (mkExp : Int → Int → List P)
    (rd : Nat → ℝ) (i : Nat) (c : LightCycle) :
    ∀ (l : List (Nat × Nat)) (g : TronGame P),
      (∀ c0 ∈ g.cycles, c0.id ≠ 0) →
      g.cycles.get? i = some c →
      (∀ d ∈ allDirections, d ≠ getOppositeDirection c.direction →
        checkCollision g (getNextPositionInDirection c.position d) = true) →
      (∃ x ∈ l, x.2 = i) →
      ∃ c2, ((l.foldl (fun s ki => processCycle mkExp (rd ki.1) s ki.2) g).cycles.get? i
        = some c2) ∧ c2.alive = false := by
  intro l
  induction l with
  | nil => intro g _ _ _ hmem; simp at hmem
  | cons x rest ih =>
    intro g hids hget hbox hmem
    by_cases hx : x.2 = i
    · have hsafe : getSafeDirections g c = [] := getSafeDirections_eq_nil hbox
      have hcoll : checkCollision g
          (getNextPositionInDirection c.position c.direction) = true :=
        hbox c.direction (mem_allDirections _) (getOppositeDirection_ne c.direction).symm
      rw [List.foldl_cons]
      apply foldl_processCycle_dead
      show ∃ c2, (processCycle mkExp (rd x.1) g x.2).cycles.get? i = some c2 ∧
        c2.alive = false
      rw [hx]
      exact processCycle_kills mkExp (rd x.1) hget hsafe hcoll
    · rw [List.foldl_cons]
      apply ih
      · exact processCycle_ids_preserved mkExp (rd x.1) g x.2 hids
      · exact (processCycle_get_ne mkExp (rd x.1) g x.2 i fun he => hx he.symm).trans hget
      · intro d hd hne
        exact processCycle_collision_preserved mkExp (rd x.1) g x.2 _ hids (hbox d hd hne)
      · rcases hmem with ⟨x1, hx1, hx1i⟩
        rcases List.mem_cons.mp hx1 with h1 | h1
        · exact absurd (h1 ▸ hx1i) hx
        · exact ⟨x1, h1, hx1i⟩

lemma aliveIndices_frame {P : Type} (g : TronGame P) (n : Nat) (ps : List P) :
    aliveIndices { g with frameCount := n, particles := ps } = aliveIndices g := rfl

lemma processCycle_positions_valid {P : Type} (mkExp : Int → Int → List P)
    (r : ℝ) (g : TronGame P) (i : Nat)
    (hinv : ∀ c ∈ g.cycles, c.alive = true → isValidPosition c.position = true) :
    ∀ c ∈ (processCycle mkExp r g i).cycles, c.alive = true →
      isValidPosition c.position = true := by
  rcases hget : g.cycles.get? i with _ | c
  · simpa only [processCycle, hget] using hinv
  · simp only [processCycle, hget]
    intro c1 hc1 halive1
    split at hc1
    · split at hc1
      · rcases List.mem_or_eq_of_mem_set hc1 with hm | he
        · exact hinv c1 hm halive1
        · rw [he] at halive1
          simp at halive1
      · rename_i hcoll
        rw [Bool.not_eq_true] at hcoll
        rcases List.mem_or_eq_of_mem_set hc1 with hm | he
        · exact hinv c1 hm halive1
        · rw [he]
          exact valid_of_checkCollision_false hcoll
    · split at hc1
      · rcases List.mem_or_eq_of_mem_set hc1 with hm | he
        · exact hinv c1 hm halive1
        · rw [he] at halive1
          simp at halive1
      · rename_i hcoll
        rw [Bool.not_eq_true] at hcoll
        rcases List.mem_or_eq_of_mem_set hc1 with hm | he
        · exact hinv c1 hm halive1
        · rw [he]
          exact valid_of_checkCollision_false hcoll

lemma createCycles_positions (rnd : Fin 4 → ℚ) :
    ∀ c ∈ createCycles rnd, isValidPosition c.position = true := by
  intro c hc
  unfold createCycles at hc
  rcases List.mem_map.mp hc with ⟨i, hi, he⟩
  rw [← he]
  fin_cases i <;> rfl

/-! ### Claim theorems -/

/-- C1 (amended): within a round (state `PLAYING`, no reset), a non-zero
Trail-grid cell is never cleared by `update`: it remains non-zero.  (Its
id can still change hands — see the counterexample — because the write is
an unconditional assignment, not a first-writer-wins `markOccupied`.) -/
theorem trail_nonzero_persists_update {P : Type}
    (up : List P → List P) (mkExp : Int → Int → List P) (rnd : Fin 4 → ℚ)
    (rdec : Nat → ℝ) (t : Int) (g : TronGame P) (p : Point)
    (hst : g.state = GameState.PLAYING)
    (hids : ∀ c ∈ g.cycles, c.id ≠ 0)
    (h : trailAt g.trailGrid p ≠ 0) :
    trailAt (update up mkExp rnd rdec t g).trailGrid p ≠ 0 := by
  unfold update
  dsimp only
  rw [if_neg (by rw [hst]; exact fun hx => nomatch hx)]
  split
  · exact h
  · split
    · exact h
    · exact (foldl_preserves
        (p := fun s : TronGame P => (∀ c ∈ s.cycles, c.id ≠ 0) ∧ trailAt s.trailGrid p ≠ 0)
        (fun (s : TronGame P) (ki : Nat × Nat) hs =>
          ⟨processCycle_ids_preserved mkExp (rdec ki.1) s ki.2 hs.1,
           processCycle_trail_nonzero mkExp (rdec ki.1) s ki.2 p hs.1 hs.2⟩)
        _ { g with frameCount := g.frameCount + 1, particles := up g.particles }
        ⟨hids, h⟩).2

/-- C1 counterexample: in the concrete reachable run A, Trail cell
`(27,3)` holds id 4 after tick 21 and id 1 after tick 22, while the round
is in `PLAYING` state throughout (so no reset occurred): a non-zero cell
changed to a different agent id, refuting write-once / first-writer-wins. -/
theorem trail_cell_overwritten_in_round :
    trailAt (runA 21).trailGrid ⟨27, 3⟩ = 4 ∧
    trailAt (runA 22).trailGrid ⟨27, 3⟩ = 1 ∧
    (runA 21).state = GameState.PLAYING ∧
    (runA 22).state = GameState.PLAYING := by
  simpa only [runA_eq] using runA_facts

/-- Closed witness for `trail_nonzero_persists_update`: `gTwo` with the
blocked cell `(1,0)` (id 2). -/
theorem trail_nonzero_persists_update_witness :
    (gTwo.state = GameState.PLAYING ∧ (∀ c ∈ gTwo.cycles, c.id ≠ 0) ∧
      trailAt gTwo.trailGrid ⟨1, 0⟩ ≠ 0) ∧
    trailAt (update (fun l => l) (fun _ _ => []) rndB (fun _ => 0) 200 gTwo).trailGrid
      ⟨1, 0⟩ ≠ 0 :=
  ⟨⟨by decide, by decide, by decide⟩,
    trail_nonzero_persists_update (fun l => l) (fun _ _ => []) rndB (fun _ => 0) 200 gTwo
      ⟨1, 0⟩ (by decide) (by decide) (by decide)⟩

/-- C3 (amended): an agent whose three non-reverse neighbour cells are all
blocked keeps its current heading (for every random draw), and — provided
at least two agents are alive so the tick is a move tick — is marked dead
by the next permitted `update`.  (With a single alive agent the tick
instead enters `RESTARTING`; see the counterexample.) -/
theorem boxed_agent_keeps_heading_and_dies {P : Type}
    (up : List P → List P) (mkExp : Int → Int → List P) (rnd : Fin 4 → ℚ)
    (rdec : Nat → ℝ) (t : Int) (g : TronGame P) (i : Nat) (c : LightCycle)
    (hids : ∀ c0 ∈ g.cycles, c0.id ≠ 0)
    (hget : g.cycles.get? i = some c)
    (halive : c.alive = true)
    (hbox : ∀ d ∈ allDirections, d ≠ getOppositeDirection c.direction →
      checkCollision g (getNextPositionInDirection c.position d) = true)
    (h1 : g.state = GameState.PLAYING)
    (h2 : ¬(t - g.lastMoveTime < g.speed))
    (h3 : ¬((aliveIndices g).length ≤ 1)) :
    (∀ r : ℝ, makeAIDecision g c r = c.direction) ∧
    ∃ c2, (update up mkExp rnd rdec t g).cycles.get? i = some c2 ∧
      c2.alive = false := by
  constructor
  · exact fun r => makeAIDecision_of_empty (getSafeDirections_eq_nil hbox) r
  · have hmemA : i ∈ aliveIndices g := by
      unfold aliveIndices
      apply List.mem_filter.mpr
      refine ⟨List.mem_range.mpr (List.get?_eq_some.mp hget).1, ?_⟩
      rw [hget]
      simp [halive]
    unfold update
    dsimp only
    rw [if_neg (by rw [h1]; exact fun hx => nomatch hx)]
    rw [if_neg h2]
    rw [aliveIndices_frame, if_neg h3]
    exact foldl_processCycle_kills mkExp rdec i c _ _ hids hget hbox
      (mem_enum_of_mem hmemA)

/-- C3 counterexample: in `gSolo` the only alive agent is boxed in on all
three non-reverse sides, yet the next permitted tick does not mark it dead
(`alive` stays `true`): the round enters `RESTARTING` instead. -/
theorem lone_boxed_agent_not_marked_dead :
    (gSolo.cycles.get? 0 = some cycBoxed ∧ cycBoxed.alive = true ∧
      (getAliveCycles gSolo).length = 1 ∧
      (∀ d ∈ allDirections, d ≠ getOppositeDirection cycBoxed.direction →
        checkCollision gSolo (getNextPositionInDirection cycBoxed.position d) = true) ∧
      gSolo.state = GameState.PLAYING ∧
      ¬((200 : Int) - gSolo.lastMoveTime < gSolo.speed)) ∧
    (update (fun l => l) (fun _ _ => []) rndB (fun _ => 0) 200 gSolo).state =
      GameState.RESTARTING ∧
    (((update (fun l => l) (fun _ _ => []) rndB (fun _ => 0) 200 gSolo).cycles.get? 0).map
      fun c => c.alive) = some true := by
  decide

/-- Closed witness for `boxed_agent_keeps_heading_and_dies`: `gTwo` with
the boxed agent at index 0 and a second alive agent. -/
theorem boxed_agent_keeps_heading_and_dies_witness :
    ((∀ c0 ∈ gTwo.cycles, c0.id ≠ 0) ∧ gTwo.cycles.get? 0 = some cycBoxed ∧
      cycBoxed.alive = true ∧
      (∀ d ∈ allDirections, d ≠ getOppositeDirection cycBoxed.direction →
        checkCollision gTwo (getNextPositionInDirection cycBoxed.position d) = true) ∧
      gTwo.state = GameState.PLAYING ∧
      ¬((200 : Int) - gTwo.lastMoveTime < gTwo.speed) ∧
      ¬((aliveIndices gTwo).length ≤ 1)) ∧
    (makeAIDecision gTwo cycBoxed 0 = cycBoxed.direction ∧
     ∃ c2, (update (fun l => l) (fun _ _ => []) rndB (fun _ => 0) 200 gTwo).cycles.get? 0 =
        some c2 ∧ c2.alive = false) :=
  ⟨⟨by decide, by decide, by decide, by decide, by decide, by decide, by decide⟩,
   ⟨(boxed_agent_keeps_heading_and_dies (fun l => l) (fun _ _ => []) rndB (fun _ => 0) 200
       gTwo 0 cycBoxed (by decide) (by decide) (by decide) (by decide) (by decide)
       (by decide) (by decide)).1 0,
    (boxed_agent_keeps_heading_and_dies (fun l => l) (fun _ _ => []) rndB (fun _ => 0) 200
       gTwo 0 cycBoxed (by decide) (by decide) (by decide) (by decide) (by decide)
       (by decide) (by decide)).2⟩⟩

/-- C4: the Decision Engine never returns the reverse of the agent's
current heading; with a non-empty candidate set it returns one of the
candidates, and with an empty candidate set it returns the current
heading unchanged — for every game state, agent, and random draw. -/
theorem decision_never_reverses {P : Type} (g : TronGame P) (c : LightCycle) (r : ℝ) :
    makeAIDecision g c r ≠ getOppositeDirection c.direction ∧
    (getSafeDirections g c ≠ [] → makeAIDecision g c r ∈ getSafeDirections g c) ∧
    (getSafeDirections g c = [] → makeAIDecision g c r = c.direction) :=
  ⟨makeAIDecision_ne_opposite g c r,
   fun h => makeAIDecision_mem h r,
   fun h => makeAIDecision_of_empty h r⟩

/-- Closed witness for `decision_never_reverses`: the boxed agent of
`gTwo` has no candidates and keeps its heading `UP`. -/
theorem decision_never_reverses_witness :
    getSafeDirections gTwo cycBoxed = [] ∧
    makeAIDecision gTwo cycBoxed 0 = cycBoxed.direction :=
  ⟨by decide, (decision_never_reverses gTwo cycBoxed 0).2.2 (by decide)⟩

/-- C5 (amended): an agent whose chosen heading leads into a blocked cell
(non-zero trail or out of bounds) is marked dead by its step: it does not
move and writes nothing to the Trail grid — a collision, never an
overwrite.  (Alive agents' positions are nevertheless not always pairwise
distinct, because the Trail grid only records cells an agent has left;
see the counterexample.) -/
theorem blocked_entry_is_collision_not_overwrite {P : Type}
    (mkExp : Int → Int → List P) (r : ℝ) (g : TronGame P) (i : Nat) (c : LightCycle)
    (hget : g.cycles.get? i = some c)
    (hcoll : checkCollision g
      (getNextPositionInDirection c.position (makeAIDecision g c r)) = true) :
    ∃ c2, (processCycle mkExp r g i).cycles.get? i = some c2 ∧
      c2.alive = false ∧ c2.position = c.position ∧
      (processCycle mkExp r g i).trailGrid = g.trailGrid := by
  have hi : i < g.cycles.length := (List.get?_eq_some.mp hget).1
  simp only [processCycle, hget]
  by_cases hdir : makeAIDecision g c r ≠ c.direction
  · rw [if_pos hdir]
    dsimp only
    rw [if_pos hcoll]
    exact ⟨_, List.get?_set_eq_of_lt _ hi, rfl, rfl, rfl⟩
  · rw [if_neg hdir]
    dsimp only
    rw [if_pos hcoll]
    exact ⟨_, List.get?_set_eq_of_lt _ hi, rfl, rfl, rfl⟩

/-- C5 counterexample: in the concrete reachable run B, after tick 20 the
alive agents at indices 0 and 2 occupy the same cell `(26,3)` — alive
agents' positions are not pairwise distinct. -/
theorem alive_positions_not_pairwise_distinct :
    (((runB 20).cycles.get? 0).map fun c => (c.position, c.alive)) =
      some (⟨26, 3⟩, true) ∧
    (((runB 20).cycles.get? 2).map fun c => (c.position, c.alive)) =
      some (⟨26, 3⟩, true) ∧
    (runB 20).state = GameState.PLAYING := by
  have h := runB_facts
  simp only [runB_eq]
  exact ⟨h.1, h.2.1, h.2.2.1⟩

/-- Closed witness for `blocked_entry_is_collision_not_overwrite`: the
boxed agent of `gTwo` (its decision keeps heading `UP`, whose cell is
blocked) is killed by its step without moving or writing. -/
theorem blocked_entry_is_collision_not_overwrite_witness :
    (gTwo.cycles.get? 0 = some cycBoxed ∧
      checkCollision gTwo (getNextPositionInDirection cycBoxed.position
        (makeAIDecision gTwo cycBoxed 0)) = true) ∧
    ∃ c2, (processCycle (fun _ _ => ([] : List Unit)) 0 gTwo 0).cycles.get? 0 = some c2 ∧
      c2.alive = false ∧ c2.position = cycBoxed.position ∧
      (processCycle (fun _ _ => ([] : List Unit)) 0 gTwo 0).trailGrid = gTwo.trailGrid :=
  ⟨⟨by decide, by rw [makeAIDecision_zero]; decide⟩,
   blocked_entry_is_collision_not_overwrite (fun _ _ => []) 0 gTwo 0 cycBoxed (by decide)
     (by rw [makeAIDecision_zero]; decide)⟩

/-- C2 (amended): (i) a permitted `PLAYING` tick that starts with at most
one alive agent immediately enters `RESTARTING`, records the entry time,
and emits an explosion for every cycle still alive, leaving cycles, trail,
score and speed untouched; (ii) once strictly more than the 1000 ms delay
has elapsed since entering `RESTARTING`, the next `update` performs the
full reset: state `PLAYING`, score `0`, speed `200`, elapsed-time origin
moved to the current time, all four agents respawned alive at the fixed
spawn corners, and the trail grid zeroed except for the four spawn cells,
which are immediately marked with their agents' ids. -/
theorem round_lifecycle_transitions {P : Type}
    (up : List P → List P) (mkExp : Int → Int → List P) (rnd : Fin 4 → ℚ)
    (rdec : Nat → ℝ) (t : Int) (g : TronGame P) :
    (g.state = GameState.PLAYING → ¬(t - g.lastMoveTime < g.speed) →
      (aliveIndices g).length ≤ 1 →
      (update up mkExp rnd rdec t g).state = GameState.RESTARTING ∧
      (update up mkExp rnd rdec t g).restartTime = t ∧
      (update up mkExp rnd rdec t g).particles =
        (getAliveCycles g).foldl (fun ps c => ps ++ mkExp c.position.x c.position.y)
          (up g.particles) ∧
      (update up mkExp rnd rdec t g).cycles = g.cycles ∧
      (update up mkExp rnd rdec t g).trailGrid = g.trailGrid ∧
      (update up mkExp rnd rdec t g).score = g.score ∧
      (update up mkExp rnd rdec t g).speed = g.speed) ∧
    (g.state = GameState.RESTARTING → t - g.restartTime > restartDelay →
      (update up mkExp rnd rdec t g).state = GameState.PLAYING ∧
      (update up mkExp rnd rdec t g).score = 0 ∧
      (update up mkExp rnd rdec t g).speed = 200 ∧
      (update up mkExp rnd rdec t g).lastMoveTime = 0 ∧
      (update up mkExp rnd rdec t g).gameStartTime = t ∧
      (update up mkExp rnd rdec t g).particles = [] ∧
      ((update up mkExp rnd rdec t g).cycles.map fun c => (c.id, c.position, c.alive)) =
        [(1, ⟨8, 1⟩, true), (2, ⟨43, 1⟩, true), (3, ⟨8, 5⟩, true), (4, ⟨43, 5⟩, true)] ∧
      (update up mkExp rnd rdec t g).trailGrid =
        setTrail (setTrail (setTrail (setTrail zeroTrail ⟨8, 1⟩ 1) ⟨43, 1⟩ 2) ⟨8, 5⟩ 3)
          ⟨43, 5⟩ 4) := by
  constructor
  · intro h1 h2 h3
    have hupd : update up mkExp rnd rdec t g =
        initiateRestart mkExp t
          { g with frameCount := g.frameCount + 1, particles := up g.particles } := by
      unfold update
      dsimp only
      rw [if_neg (by rw [h1]; exact fun h => nomatch h)]
      rw [if_neg h2]
      rw [aliveIndices_frame, if_pos h3]
    rw [hupd]
    exact ⟨rfl, rfl, rfl, rfl, rfl, rfl, rfl⟩
  · intro h1 h2
    have hupd : update up mkExp rnd rdec t g =
        reset t rnd
          { g with frameCount := g.frameCount + 1, particles := up g.particles } := by
      unfold update
      dsimp only
      rw [if_pos h1, if_pos h2]
    rw [hupd]
    exact ⟨rfl, rfl, rfl, rfl, rfl, rfl, rfl, rfl⟩

/-- Closed witness for `round_lifecycle_transitions`: `gSolo` (one alive
agent) at its first permitted tick enters `RESTARTING`; `gWait` at time
1500 (delay elapsed) resets to the four spawn positions. -/
theorem round_lifecycle_transitions_witness :
    (gSolo.state = GameState.PLAYING ∧ ¬((200 : Int) - gSolo.lastMoveTime < gSolo.speed) ∧
      (aliveIndices gSolo).length ≤ 1 ∧
      (update (fun l => l) (fun _ _ => []) rndB (fun _ => 0) 200 gSolo).state =
        GameState.RESTARTING) ∧
    (gWait.state = GameState.RESTARTING ∧ (1500 : Int) - gWait.restartTime > restartDelay ∧
      (update (fun l => l) (fun _ _ => []) rndB (fun _ => 0) 1500 gWait).state =
        GameState.PLAYING) :=
  ⟨⟨by decide, by decide, by decide,
    ((round_lifecycle_transitions (fun l => l) (fun _ _ => []) rndB (fun _ => 0) 200
      gSolo).1 (by decide) (by decide) (by decide)).1⟩,
   ⟨by decide, by decide,
    ((round_lifecycle_transitions (fun l => l) (fun _ _ => []) rndB (fun _ => 0) 1500
      gWait).2 (by decide) (by decide)).1⟩⟩

/-- C10: an `update` call that performs no move step — `RESTARTING` with
the delay not yet elapsed, or `PLAYING` with less than the tick interval
since the last move — only updates the particle list and the frame
counter; every other field (score, speed, state, trail grid, cycles,
timers) is unchanged. -/
theorem skipped_tick_changes_only_particles_and_frame {P : Type}
    (up : List P → List P) (mkExp : Int → Int → List P) (rnd : Fin 4 → ℚ)
    (rdec : Nat → ℝ) (t : Int) (g : TronGame P)
    (hcase : (g.state = GameState.RESTARTING ∧ ¬(t - g.restartTime > restartDelay)) ∨
      (g.state = GameState.PLAYING ∧ t - g.lastMoveTime < g.speed)) :
    update up mkExp rnd rdec t g =
      { g with frameCount := g.frameCount + 1, particles := up g.particles } := by
  rcases hcase with ⟨h1, h2⟩ | ⟨h1, h2⟩
  · simp only [update, h1, if_true]
    rw [if_neg h2]
  · simp only [update, h1, if_false, reduceCtorEq]
    rw [if_pos h2]

/-- Closed witness for `skipped_tick_changes_only_particles_and_frame`:
the `RESTARTING` state `gWait` at time 500 (delay not elapsed). -/
theorem skipped_tick_changes_only_particles_and_frame_witness :
    (gWait.state = GameState.RESTARTING ∧ ¬((500 : Int) - gWait.restartTime > restartDelay)) ∧
    update (fun l => l) (fun _ _ => []) rndB (fun _ => 0) 500 gWait =
      { gWait with frameCount := gWait.frameCount + 1, particles := gWait.particles } :=
  ⟨by decide, skipped_tick_changes_only_particles_and_frame _ _ _ _ _ _
    (Or.inl ⟨by decide, by decide⟩)⟩

/-- C6 (amended): after a permitted `PLAYING` move tick, the score equals
`survivalSeconds × 10 + aliveCount × 5 + totalTrailCellsWritten` where
`aliveCount` is the number of agents alive at the START of the tick
(before this tick's deaths), not after the moves. -/
theorem score_formula_pre_tick_alive {P : Type}
    (up : List P → List P) (mkExp : Int → Int → List P) (rnd : Fin 4 → ℚ)
    (rdec : Nat → ℝ) (t : Int) (g : TronGame P)
    (h1 : g.state = GameState.PLAYING)
    (h2 : ¬(t - g.lastMoveTime < g.speed))
    (h3 : ¬((aliveIndices g).length ≤ 1)) :
    (update up mkExp rnd rdec t g).score =
      ((t - g.gameStartTime).fdiv 1000) * 10 + ((aliveIndices g).length : Int) * 5 +
      (trailCellCount (update up mkExp rnd rdec t g).trailGrid : Int) := by
  unfold update
  dsimp only
  rw [if_neg (by rw [h1]; exact fun hx => nomatch hx)]
  rw [if_neg h2]
  rw [aliveIndices_frame, if_neg h3]
  have hgst : ((aliveIndices g).enum.foldl
      (fun (s : TronGame P) (ki : Nat × Nat) => processCycle mkExp (rdec ki.1) s ki.2)
      { g with frameCount := g.frameCount + 1, particles := up g.particles
        }).gameStartTime = g.gameStartTime :=
    foldl_preserves
      (p := fun s : TronGame P => s.gameStartTime = g.gameStartTime)
      (fun (s : TronGame P) (ki : Nat × Nat) hs =>
        (processCycle_gameStartTime mkExp (rdec ki.1) s ki.2).trans hs)
      _ _ rfl
  dsimp only
  rw [hgst]

/-- C6 counterexample: at tick 39 of the concrete reachable run B an agent
dies (4 alive before, 3 after); the recomputed score matches the formula
with the pre-tick alive count (4) and differs from the claimed formula
with the post-tick alive count (3). -/
theorem score_uses_pre_tick_alive_count :
    (runB 38).state = GameState.PLAYING ∧
    ¬((200 * 39 : Int) - (runB 38).lastMoveTime < (runB 38).speed) ∧
    (getAliveCycles (runB 38)).length = 4 ∧
    (getAliveCycles (runB 39)).length = 3 ∧
    (runB 39).score = ((200 * 39 - (runB 39).gameStartTime).fdiv 1000) * 10 +
      ((getAliveCycles (runB 38)).length : Int) * 5 +
      (trailCellCount (runB 39).trailGrid : Int) ∧
    (runB 39).score ≠ ((200 * 39 - (runB 39).gameStartTime).fdiv 1000) * 10 +
      ((getAliveCycles (runB 39)).length : Int) * 5 +
      (trailCellCount (runB 39).trailGrid : Int) := by
  obtain ⟨f1, f2, f3, f4, f5, f6, f7, f8, f9, f10, f11, f12, f13, f14, f15, f16, f17,
    f18, f19, f20, f21, f22, f23⟩ := runB_facts
  simp only [runB_eq]
  refine ⟨f4, ?_, f7, f9, ?_, ?_⟩
  · rw [f5, f6]
    decide
  · rw [f8, f11, f7, f10]
    decide
  · rw [f8, f11, f9, f10]
    decide

/-- Closed witness for `score_formula_pre_tick_alive`: `gTwo` (two alive
agents, one boxed in) at its first permitted tick. -/
theorem score_formula_pre_tick_alive_witness :
    (gTwo.state = GameState.PLAYING ∧ ¬((200 : Int) - gTwo.lastMoveTime < gTwo.speed) ∧
      ¬((aliveIndices gTwo).length ≤ 1)) ∧
    (update (fun l => l) (fun _ _ => []) rndB (fun _ => 0) 200 gTwo).score =
      (((200 : Int) - gTwo.gameStartTime).fdiv 1000) * 10 +
      ((aliveIndices gTwo).length : Int) * 5 +
      (trailCellCount (update (fun l => l) (fun _ _ => []) rndB (fun _ => 0) 200
        gTwo).trailGrid : Int) :=
  ⟨⟨by decide, by decide, by decide⟩,
   score_formula_pre_tick_alive (fun l => l) (fun _ _ => []) rndB (fun _ => 0) 200 gTwo
     (by decide) (by decide) (by decide)⟩

/-- C2 counterexample: in the concrete reachable run B, the alive count
drops from 3 to 1 during tick 40 yet the state is still `PLAYING` after
that tick (`RESTARTING` only begins at the next permitted tick), and
after the restart delay the reset state's Trail grid is not fully zeroed:
spawn cell `(8,1)` holds id 1. -/
theorem restart_not_immediate_and_trail_not_zeroed :
    (getAliveCycles (runB 39)).length = 3 ∧
    (runB 39).state = GameState.PLAYING ∧
    (getAliveCycles (runB 40)).length = 1 ∧
    (runB 40).state = GameState.PLAYING ∧
    (runB 46).state = GameState.RESTARTING ∧
    (runB 47).state = GameState.PLAYING ∧
    trailAt (runB 47).trailGrid ⟨8, 1⟩ = 1 := by
  obtain ⟨f1, f2, f3, f4, f5, f6, f7, f8, f9, f10, f11, f12, f13, f14, f15, f16, f17,
    f18, f19, f20, f21, f22, f23⟩ := runB_facts
  simp only [runB_eq]
  exact ⟨f9, f12, f13, f14, f17, f18, f19⟩

/-- C7: a candidate's scalar score is exactly the fixed linear combination
`safetyDistance×15 + openSpace×8 + edgeDistance×5 + pathDiversity×3 +
continuity×2 + exploration×4 + avoidance×(−20) + futureOptions×6` of the
eight features, each extracted at the candidate's resulting next cell. -/
theorem score_is_weighted_feature_sum {P : Type} (g : TronGame P)
    (c : LightCycle) (d : Direction) :
    extractFeatures g c d =
      { safetyDistance :=
          (safetyScan g d 10 (getNextPositionInDirection c.position d) : Int)
        openSpace :=
          (countOpenSpaceAround g (getNextPositionInDirection c.position d) 2 : Int)
        edgeDistance :=
          min (min (getNextPositionInDirection c.position d).x
              (51 - (getNextPositionInDirection c.position d).x))
            (min (getNextPositionInDirection c.position d).y
              (6 - (getNextPositionInDirection c.position d).y))
        pathDiversity :=
          max 0 (10 - ((c.pathfindingMemory.filter fun p =>
            decide ((p.x - (getNextPositionInDirection c.position d).x).natAbs ≤ 2) &&
            decide ((p.y - (getNextPositionInDirection c.position d).y).natAbs ≤ 2)).length
              : Int))
        continuity := if d == c.direction then 1 else 0
        exploration :=
          match gridAt? g.grid (getNextPositionInDirection c.position d) with
          | some v => if v ≤ 1 then 1 else 0
          | none => 0
        avoidance :=
          if checkCollision g (getNextPositionInDirection c.position d) then 1 else 0
        futureOptions :=
          (countFutureOptions g (getNextPositionInDirection c.position d) d : Int) } ∧
    neuralEvaluateDirection g c d =
      (extractFeatures g c d).safetyDistance * 15 +
      (extractFeatures g c d).openSpace * 8 +
      (extractFeatures g c d).edgeDistance * 5 +
      (extractFeatures g c d).pathDiversity * 3 +
      (extractFeatures g c d).continuity * 2 +
      (extractFeatures g c d).exploration * 4 +
      (extractFeatures g c d).avoidance * (-20) +
      (extractFeatures g c d).futureOptions * 6 :=
  ⟨rfl, rfl⟩

/-- C8: out-of-bounds cells are always blocked; `reset` spawns every agent
in bounds; and `update` preserves "every alive agent's position satisfies
`0 ≤ x < 52, 0 ≤ y < 7`" (an agent only moves to its computed next cell
when that cell is not blocked, and blocked includes out of bounds) — so
the bound holds at every tick of every round. -/
theorem alive_positions_in_bounds {P : Type}
    (up : List P → List P) (mkExp : Int → Int → List P) (rnd : Fin 4 → ℚ)
    (rdec : Nat → ℝ) (t now : Int) (g : TronGame P) :
    (∀ p : Point, isValidPosition p = false → checkCollision g p = true) ∧
    (∀ c ∈ (reset now rnd g).cycles, c.alive = true → isValidPosition c.position = true) ∧
    ((∀ c ∈ g.cycles, c.alive = true → isValidPosition c.position = true) →
      ∀ c ∈ (update up mkExp rnd rdec t g).cycles, c.alive = true →
        isValidPosition c.position = true) := by
  refine ⟨fun p hp => checkCollision_of_invalid g hp, ?_, ?_⟩
  · intro c hc _
    exact createCycles_positions rnd c hc
  · intro hinv
    unfold update
    dsimp only
    split
    · split
      · intro c hc _
        exact createCycles_positions rnd c hc
      · exact hinv
    · split
      · exact hinv
      · split
        · exact hinv
        · intro c hc
          exact (foldl_preserves
            (p := fun s : TronGame P => ∀ c0 ∈ s.cycles, c0.alive = true →
              isValidPosition c0.position = true)
            (fun (s : TronGame P) (ki : Nat × Nat) hs =>
              processCycle_positions_valid mkExp (rdec ki.1) s ki.2 hs)
            _ { g with frameCount := g.frameCount + 1, particles := up g.particles }
            hinv) c hc

/-- Closed witness for `alive_positions_in_bounds`: `gTwo` with the
out-of-bounds point `(-1, 0)`. -/
theorem alive_positions_in_bounds_witness :
    (isValidPosition (⟨-1, 0⟩ : Point) = false ∧
      (∀ c ∈ gTwo.cycles, c.alive = true → isValidPosition c.position = true)) ∧
    checkCollision gTwo ⟨-1, 0⟩ = true ∧
    (∀ c ∈ (update (fun l => l) (fun _ _ => []) rndB (fun _ => 0) 200 gTwo).cycles,
      c.alive = true → isValidPosition c.position = true) :=
  ⟨⟨by decide, by decide⟩,
   (alive_positions_in_bounds (fun l => l) (fun _ _ => []) rndB (fun _ => 0) 200 0
     gTwo).1 ⟨-1, 0⟩ (by decide),
   (alive_positions_in_bounds (fun l => l) (fun _ _ => []) rndB (fun _ => 0) 200 0
     gTwo).2.2 (by decide)⟩

lemma list_sum_div (l : List ℝ) (S : ℝ) :
    (l.map fun e => e / S).sum = l.sum / S := by
  induction l with
  | nil => simp
  | cons a rest ih => simp [ih, add_div]

/-- C9: for a non-empty candidate set the softmax selection probabilities
`exp(sᵢ/0.5) / Σⱼ exp(sⱼ/0.5)` sum to exactly 1 over the reals, and for
every random draw the cumulative-probability sampling (including its
fall-through) returns one of the candidates. -/
theorem softmax_sums_to_one_and_selects_candidate {P : Type} (g : TronGame P)
    (c : LightCycle) (h : getSafeDirections g c ≠ []) :
    (softmaxProbs ((sortedEvaluations g c).map fun e => (e.2 : ℝ))).sum = 1 ∧
    ∀ r : ℝ, makeAIDecision g c r ∈ getSafeDirections g c := by
  constructor
  · have hne : ((sortedEvaluations g c).map fun e => (e.2 : ℝ)) ≠ [] := by
      intro hnil
      have hlen := congrArg List.length hnil
      simp only [List.length_map, List.length_nil, sortedEvaluations,
        sortDesc_length] at hlen
      exact h (List.length_eq_zero.mp hlen)
    have hpos := softmaxProbs_sum_pos _ hne
    unfold softmaxProbs
    dsimp only
    rw [list_sum_div, div_self (ne_of_gt hpos)]
  · exact fun r => makeAIDecision_mem h r

/-- Closed witness for `softmax_sums_to_one_and_selects_candidate`: the
free agent of `gTwo` has a non-empty candidate set. -/
theorem softmax_sums_to_one_and_selects_candidate_witness :
    getSafeDirections gTwo cycFree ≠ [] ∧
    makeAIDecision gTwo cycFree 0 ∈ getSafeDirections gTwo cycFree :=
  ⟨by decide,
   (softmax_sums_to_one_and_selects_candidate gTwo cycFree (by decide)).2 0⟩

end TronGame

end Tron
